import Mathlib

/-
Verification development for the bilibili live client library
(src/index.js).  The file shallowly embeds, in Lean, the parts of the
source that the claims are about:

* the `Live` constructor room-id validation (index.js lines 18-25);
* the `Live` message handler, `heartbeat` and `getOnline` operations
  (lines 27-78);
* the `_error` handler and the WS/TCP adapter event mappings
  (lines 65-68, 92-95, 122-124);
* the TCP frame assembler `splitBuffer` (lines 126-143), including the
  exact Node semantics of `readInt32BE` (a SIGNED big-endian read) and
  of `Buffer.slice` with negative indices;
* the keep-alive supervisor `connect` / `close` machinery
  (lines 150-215).

Byte buffers are `List Nat` (each entry one byte), JS numbers that can
be non-integral are `Rat`, fallible construction is `Except`, the
stateful handlers are explicit state-passing functions, and the
potentially non-terminating `splitBuffer` loop is fuel-indexed.
-/

namespace BiliLive

/-! ### JS room-id values and the `Live` constructor (index.js 18-25) -/

/-- A JavaScript value passed as `roomid`: a (finite, possibly
non-integral) number, the number `NaN`, a string, or `undefined`. -/
inductive JsVal where
  | num (x : Rat)
  | nan
  | str (s : String)
  | undef
deriving DecidableEq

/-- The JS check `typeof roomid === "number"` — note that `NaN` is of
type number. -/
def typeofNumber : JsVal → Bool
  | .num _ => true
  | .nan => true
  | _ => false

/-- `Number.isNaN(roomid)`. -/
def isNaNv : JsVal → Bool
  | .nan => true
  | _ => false

/-- The fields the `Live` constructor initialises before wiring
handlers: `this.roomid = roomid; this.online = 0`. -/
structure LiveInit where
  roomid : JsVal
  online : Nat

/-- index.js 18-25: throw when the room id is not of number type or is
`NaN`, and otherwise initialise the fields.
The throw happens before any transport object is created. -/
def liveCtor (roomid : JsVal) : Except String LiveInit :=
  if !typeofNumber roomid || isNaNv roomid then
    Except.error "roomid must be Number not NaN"
  else
    Except.ok { roomid := roomid, online := 0 }

/-- The JS number 1.5, as an explicit rational (numerator 3,
denominator 2): a finite number that is not an integer. -/
def threeHalves : Rat := ⟨3, 2, by decide, by decide⟩

/-! ### The keep-alive supervisor (index.js 150-215)

Only the reconnect bookkeeping is modelled: the `closed` flag, the
number of scheduled-but-not-yet-fired reconnect timers, and the number
of `Session` objects constructed so far by `connect()`. -/

/-- Supervisor state: `closed` is `this.closed`; `pending` counts
reconnect callbacks scheduled by `setTimeout(() => this.connect(),
this.interval)` that have not fired yet; `built` counts how many base
`Session` connections `connect()` has constructed. -/
structure SupState where
  closed : Bool
  pending : Nat
  built : Nat
deriving DecidableEq

/-- The supervisor constructor sets `closed = false` and immediately
calls `connect()`, constructing the first Session. -/
def supInit : SupState :=
  { closed := false, pending := 0, built := 1 }

/-- Events driving the supervisor: the current connection emits
`close`; a previously scheduled reconnect timer fires; the caller
invokes `close()` on the supervisor. -/
inductive SupEvent where
  | connClose
  | retryFire
  | superClose
deriving DecidableEq

/-- index.js 172-176, 199-202.  On a connection `close` event the
supervisor schedules a reconnect only when not closed; when a scheduled
timer fires it runs `connect()` unconditionally — `connect()` does not
re-check `this.closed`; `close()` sets `closed` and closes the current
connection but does not cancel an already scheduled timer. -/
def supStep (s : SupState) : SupEvent → SupState
  | .connClose =>
      if s.closed then s else { s with pending := s.pending + 1 }
  | .retryFire =>
      if s.pending = 0 then s
      else { s with pending := s.pending - 1, built := s.built + 1 }
  | .superClose => { s with closed := true }

/-- Run the supervisor over a sequence of events. -/
def supRun (s : SupState) (evs : List SupEvent) : SupState :=
  evs.foldl supStep s

/-- Constructing a `KeepLive…` supervisor constructs its first base
connection through the same validating `Live` constructor. -/
def keepLiveCtor (roomid : JsVal) : Except String (SupState × LiveInit) :=
  (liveCtor roomid).map (fun i => (supInit, i))

/-! ### The TCP frame assembler (index.js 126-143) -/

/-- Byte `i` of the buffer (0 when out of range; Node buffers always
hold values below 256, the reduction makes that explicit). -/
def byteAt (buf : List Nat) (i : Nat) : Nat :=
  buf.getD i 0 % 256

/-- The UNSIGNED big-endian 32-bit read of the first four bytes; this
is what Node `readUInt32BE(0)` would return and is the interpretation
the specification text describes. -/
def readUInt32BE (buf : List Nat) : Nat :=
  byteAt buf 0 * 16777216 + byteAt buf 1 * 65536 +
    byteAt buf 2 * 256 + byteAt buf 3

/-- Node `readInt32BE(0)`, the call the source actually makes: the same
four bytes interpreted as a SIGNED two-complement 32-bit integer. -/
def readInt32BE (buf : List Nat) : Int :=
  if readUInt32BE buf < 2147483648 then (readUInt32BE buf : Int)
  else (readUInt32BE buf : Int) - 4294967296

/-- Resolve a JS `Buffer.slice` index against a buffer length: negative
indices count from the end and everything is clamped into range. -/
def jsIdx (len : Nat) (i : Int) : Nat :=
  if i < 0 then ((len : Int) + i).toNat else min i.toNat len

/-- `buf.slice(s, e)` with full JS negative-index semantics. -/
def jsSlice (buf : List Nat) (s e : Int) : List Nat :=
  (buf.take (jsIdx buf.length e)).drop (jsIdx buf.length s)

/-- `buf.slice(s)` (end defaults to the buffer length). -/
def jsSliceFrom (buf : List Nat) (s : Int) : List Nat :=
  buf.drop (jsIdx buf.length s)

/-- The guard of the `while` loop in `splitBuffer` (index.js 137):
`this.buffer.length >= 4 && this.buffer.readInt32BE(0) <=
this.buffer.length`. -/
def splitCond (buf : List Nat) : Bool :=
  decide (4 ≤ buf.length) && decide (readInt32BE buf ≤ (buf.length : Int))

/-- The emitted packet of one loop iteration:
`this.buffer.slice(0, size)` (index.js 139). -/
def splitPack (buf : List Nat) : List Nat :=
  jsSlice buf 0 (readInt32BE buf)

/-- The remaining buffer after one loop iteration:
`this.buffer.slice(size)` (index.js 140). -/
def splitRest (buf : List Nat) : List Nat :=
  jsSliceFrom buf (readInt32BE buf)

/-- The `splitBuffer` while loop, fuel-indexed because for some inputs
(declared length 0) the source loop never terminates: `none` means the
loop did not finish within `fuel` iterations, `some (frames, rest)`
means it exited normally having emitted `frames` in order and leaving
`rest` as `this.buffer`. -/
def splitBufferFuel : Nat → List Nat → Option (List (List Nat) × List Nat)
  | 0, _ => none
  | fuel + 1, buf =>
    if splitCond buf then
      (splitBufferFuel fuel (splitRest buf)).map
        (fun pr => (splitPack buf :: pr.1, pr.2))
    else
      some ([], buf)

/-- The `data` handler (index.js 126-129) for a whole sequence of
chunks: each chunk is appended to the carried buffer and the split loop
is run to completion.  Frames from successive chunks are concatenated
in order. -/
def feedFuel (fuel : Nat) : List Nat → List (List Nat) →
    Option (List (List Nat) × List Nat)
  | b, [] => some ([], b)
  | b, c :: cs =>
    (splitBufferFuel fuel (b ++ c)).bind
      (fun pr => (feedFuel fuel pr.2 cs).map
        (fun qr => (pr.1 ++ qr.1, qr.2)))

/-- Big-step semantics of one `splitBuffer()` call:
`SplitsTo buf frames rest` holds when the while loop started on `buf`
terminates, emitting `frames` in order and leaving `rest`. -/
inductive SplitsTo : List Nat → List (List Nat) → List Nat → Prop where
  | stop (buf : List Nat) :
      splitCond buf = false → SplitsTo buf [] buf
  | step (buf : List Nat) (fs : List (List Nat)) (r : List Nat) :
      splitCond buf = true → SplitsTo (splitRest buf) fs r →
      SplitsTo buf (splitPack buf :: fs) r

/-- As `SplitsTo`, but additionally recording that every declared frame
length read during the run was at least 1. -/
inductive SplitsToPos : List Nat → List (List Nat) → List Nat → Prop where
  | stop (buf : List Nat) :
      splitCond buf = false → SplitsToPos buf [] buf
  | step (buf : List Nat) (fs : List (List Nat)) (r : List Nat) :
      splitCond buf = true → 1 ≤ readInt32BE buf →
      SplitsToPos (splitRest buf) fs r →
      SplitsToPos buf (splitPack buf :: fs) r

/-- Big-step semantics of feeding a list of chunks one `data` event at
a time, starting from carried buffer `b`. -/
inductive FeedAll : List Nat → List (List Nat) → List (List Nat) →
    List Nat → Prop where
  | nil (b : List Nat) : FeedAll b [] [] b
  | cons (b c : List Nat) (cs : List (List Nat)) (fs F : List (List Nat))
      (r R : List Nat) :
      SplitsTo (b ++ c) fs r → FeedAll r cs F R →
      FeedAll b (c :: cs) (fs ++ F) R

/-- Fuel-indexed check that every declared frame length the split loop
reads from `buf` is at least 1 (so the loop makes progress and
terminates). -/
def goodA : Nat → List Nat → Bool
  | 0, _ => false
  | fuel + 1, buf =>
    if splitCond buf then
      decide (1 ≤ readInt32BE buf) && goodA fuel (splitRest buf)
    else
      true

/-- Every declared frame length that the split loop reads from `buf` is
at least 1; `buf.length + 1` iterations always suffice to decide this
because each positive-length frame consumes at least one byte. -/
def goodBuf (buf : List Nat) : Bool :=
  goodA (buf.length + 1) buf

/-! ### The protocol session (index.js 27-78) -/

/-- The payload of a decoded `message` packet, as the command routing
sees it: an optional top-level `cmd` string and an optional nested
`msg.cmd` string (`none` also covers an absent `msg` wrapper). -/
structure MsgData where
  cmd : Option String
  msgCmd : Option String
deriving DecidableEq

/-- JS truthiness of an optional string: the empty string is falsy. -/
def truthyStr : Option String → Option String
  | some s => if s = "" then none else some s
  | none => none

/-- index.js 44: `const cmd = data.cmd || (data.msg && data.msg.cmd)`,
followed by the `if (cmd)` truthiness gate of line 45. -/
def getCmd (d : MsgData) : Option String :=
  match truthyStr d.cmd with
  | some s => some s
  | none => truthyStr d.msgCmd

/-- `needle` occurs as a contiguous run inside `hay` (the semantics of
JS `hay.includes(needle)` on strings, at the character-list level). -/
def hasSub (needle : List Char) : List Char → Bool
  | [] => needle.isEmpty
  | c :: t => needle.isPrefixOf (c :: t) || hasSub needle t

/-- JS `hay.includes(needle)` for strings. -/
def strIncludes (hay needle : String) : Bool :=
  hasSub needle.data hay.data

/-- A decoded packet, as produced by the codec: `welcome`, `heartbeat`
with the online count, or `message` with a structured payload. -/
inductive Pack where
  | welcome
  | heartbeat (n : Nat)
  | message (d : MsgData)
deriving DecidableEq

/-- Encoded wire operations the session sends. -/
inductive WireOut where
  | heartbeatReq
  | joinReq (uid : Nat) (roomid : Rat) (protover : Nat)
      (platform : String) (clientver : String) (typ : Nat)
deriving DecidableEq

/-- Observable outputs of the session, in emission order: events
emitted on the session emitter, wire sends, the resolution of a pending
`getOnline` promise, and the `this.close()` call made by the `_error`
handler. -/
inductive Out where
  | liveEvt
  | heartbeatEvt (n : Nat)
  | msgEvt (d : MsgData)
  | namedEvt (name : String) (d : MsgData)
  | send (w : WireOut)
  | resolve (id : Nat) (n : Nat)
  | closeCall
  | errorEvt (cause : Nat)
deriving DecidableEq

/-- Session state: the room id, the `live` flag, the last online count,
whether the 30-unit heartbeat timer is armed, and the ids of pending
one-shot heartbeat listeners (registered through `once`) created by
`getOnline()`, in registration order. -/
structure SessionState where
  roomid : Rat
  live : Bool
  online : Nat
  hbTimer : Bool
  pendingOnce : List Nat
deriving DecidableEq

/-- A fresh session for a given room. -/
def initSession (roomid : Rat) : SessionState :=
  { roomid := roomid, live := false, online := 0,
    hbTimer := false, pendingOnce := [] }

/-- index.js 29-53: processing of one decoded packet.  `welcome` sets
`live`, emits `live`, then sends a heartbeat request.  `heartbeat n`
stores the count, re-arms the heartbeat timer, and emits
`heartbeat(n)`, which also fires (and removes) every pending one-shot
listener registered by `getOnline`.  `message` emits `msg` and then the
command-routed event: a command containing the substring `DANMU_MSG` is
emitted under the canonical name `DANMU_MSG`, any other command under
its own name. -/
def handlePack (s : SessionState) : Pack → SessionState × List Out
  | .welcome =>
      ({ s with live := true },
       [Out.liveEvt, Out.send WireOut.heartbeatReq])
  | .heartbeat n =>
      ({ s with online := n, hbTimer := true, pendingOnce := [] },
       Out.heartbeatEvt n :: s.pendingOnce.map (fun id => Out.resolve id n))
  | .message d =>
      (s,
       Out.msgEvt d ::
         (match getCmd d with
          | some c =>
            [Out.namedEvt (if strIncludes c "DANMU_MSG" then "DANMU_MSG" else c) d]
          | none => []))

/-- `packs.forEach(pack => ...)` (index.js 29): fold the packet handler
over a decoded packet list, concatenating the outputs in order. -/
def processPacks (s : SessionState) (ps : List Pack) : SessionState × List Out :=
  ps.foldl (fun acc p =>
    ((handlePack acc.1 p).1, acc.2 ++ (handlePack acc.1 p).2)) (s, [])

/-- index.js 75-78: `getOnline()` sends a heartbeat request and
registers a fresh one-shot `heartbeat` listener (identified here by
`id`) whose resolution value will be the next heartbeat count. -/
def getOnline (s : SessionState) (id : Nat) : SessionState × List Out :=
  ({ s with pendingOnce := s.pendingOnce ++ [id] },
   [Out.send WireOut.heartbeatReq])

/-- Lifecycle inputs delivered to the session emitter by a transport
adapter. -/
inductive CtrlIn where
  | opened
  | closedEvt
  | errored (cause : Nat)
deriving DecidableEq

/-- Raw transport events before adapter renaming. -/
inductive TransportEvt where
  | tOpen
  | tClose
  | tError (cause : Nat)
deriving DecidableEq

/-- The adapter mappings of index.js 92-95 and 122-124: WS
`open`/`close`/`error` and TCP `ready`/`close`/`error` are forwarded as
the session events `open`, `close` and `_error`. -/
def adapterMap : TransportEvt → CtrlIn
  | .tOpen => .opened
  | .tClose => .closedEvt
  | .tError c => .errored c

/-- index.js 56-68: the `open` handler sends the join request with the
fixed protocol metadata; the `close` handler cancels the heartbeat
timer; the `_error` handler first calls `this.close()` and then emits
`error` with the cause. -/
def handleCtrl (s : SessionState) : CtrlIn → SessionState × List Out
  | .opened =>
      (s, [Out.send (WireOut.joinReq 0 s.roomid 2 "web" "1.8.5" 2)])
  | .closedEvt => ({ s with hbTimer := false }, [])
  | .errored c => (s, [Out.closeCall, Out.errorEvt c])

/-- Observable supervisor outputs for one relayed session event. -/
inductive SupOut where
  | emitted (name : String) (payload : Nat)
  | livenessReset
  | livenessCancelled
  | retryScheduled
deriving DecidableEq

/-- index.js 11-14 and 169-188: when the connection emits an event, the
name-specific supervisor subscriptions fire first (in registration
order: the `error`-to-`e` forwarder, the retry scheduler and liveness
cancel on `close`, the liveness reset on `heartbeat`), and then the
`relayEvent` broadcast makes the supervisor re-emit the event verbatim
to its own listeners. -/
def supOnSessionEvent (closed : Bool) (name : String) (payload : Nat) :
    List SupOut :=
  (if name = "error" then [SupOut.emitted "e" payload] else []) ++
    (if name = "close" then
      (if closed then [] else [SupOut.retryScheduled]) ++
        [SupOut.livenessCancelled]
     else []) ++
    (if name = "heartbeat" then [SupOut.livenessReset] else []) ++
    [SupOut.emitted name payload]

/-- The end-to-end dispatch when the decode of each received buffer
completes in the order given by `order`: the continuation of each
`await decoder(buffer)` runs when its decode completes, and dispatches
the packets of that buffer atomically (index.js 27-54 has no serialisation
across buffers). -/
def completionDispatch (s : SessionState) (buffers : List (List Pack))
    (order : List Nat) : SessionState × List Out :=
  processPacks s (order.map (fun i => buffers.getD i [])).flatten

/-! ### Helper lemmas about the frame assembler -/

theorem byteAt_append (a d : List Nat) (i : Nat) (h : i < a.length) :
    byteAt (a ++ d) i = byteAt a i := by
  unfold byteAt
  rw [List.getD_append _ _ _ _ h]

theorem readUInt32BE_append (a d : List Nat) (h : 4 ≤ a.length) :
    readUInt32BE (a ++ d) = readUInt32BE a := by
  unfold readUInt32BE
  rw [byteAt_append a d 0 (by omega), byteAt_append a d 1 (by omega),
    byteAt_append a d 2 (by omega), byteAt_append a d 3 (by omega)]

theorem readInt32BE_append (a d : List Nat) (h : 4 ≤ a.length) :
    readInt32BE (a ++ d) = readInt32BE a := by
  unfold readInt32BE
  rw [readUInt32BE_append a d h]

theorem splitCond_iff (buf : List Nat) :
    splitCond buf = true ↔
      4 ≤ buf.length ∧ readInt32BE buf ≤ (buf.length : Int) := by
  simp [splitCond]

theorem splitCond_false_iff (buf : List Nat) :
    splitCond buf = false ↔
      buf.length < 4 ∨ (buf.length : Int) < readInt32BE buf := by
  simp [splitCond]
  omega

theorem splitPack_eq_take (buf : List Nat) (h0 : 0 ≤ readInt32BE buf)
    (hle : readInt32BE buf ≤ (buf.length : Int)) :
    splitPack buf = buf.take (readInt32BE buf).toNat := by
  have h1 : ¬ ((0 : Int) < 0) := by omega
  have h2 : ¬ (readInt32BE buf < 0) := by omega
  have h3 : (readInt32BE buf).toNat ≤ buf.length := by omega
  unfold splitPack jsSlice jsIdx
  rw [if_neg h2, if_neg h1]
  simp [min_eq_left h3]

theorem splitRest_eq_drop (buf : List Nat) (h0 : 0 ≤ readInt32BE buf)
    (hle : readInt32BE buf ≤ (buf.length : Int)) :
    splitRest buf = buf.drop (readInt32BE buf).toNat := by
  have h2 : ¬ (readInt32BE buf < 0) := by omega
  have h3 : (readInt32BE buf).toNat ≤ buf.length := by omega
  unfold splitRest jsSliceFrom jsIdx
  rw [if_neg h2]
  simp [min_eq_left h3]

theorem splitCond_append (a d : List Nat) (h : splitCond a = true) :
    splitCond (a ++ d) = true := by
  obtain ⟨h4, hle⟩ := (splitCond_iff a).1 h
  refine (splitCond_iff (a ++ d)).2 ⟨by simp [List.length_append]; omega, ?_⟩
  rw [readInt32BE_append a d h4]
  simp only [List.length_append]
  push_cast
  omega

theorem splitPack_append (a d : List Nat) (h4 : 4 ≤ a.length)
    (h0 : 0 ≤ readInt32BE a) (hle : readInt32BE a ≤ (a.length : Int)) :
    splitPack (a ++ d) = splitPack a := by
  have hr : readInt32BE (a ++ d) = readInt32BE a := readInt32BE_append a d h4
  have h0x : 0 ≤ readInt32BE (a ++ d) := by rw [hr]; exact h0
  have hlex : readInt32BE (a ++ d) ≤ ((a ++ d).length : Int) := by
    rw [hr]; simp only [List.length_append]; push_cast; omega
  rw [splitPack_eq_take a h0 hle, splitPack_eq_take (a ++ d) h0x hlex, hr,
    List.take_append_of_le_length (by omega)]

theorem splitRest_append (a d : List Nat) (h4 : 4 ≤ a.length)
    (h0 : 0 ≤ readInt32BE a) (hle : readInt32BE a ≤ (a.length : Int)) :
    splitRest (a ++ d) = splitRest a ++ d := by
  have hr : readInt32BE (a ++ d) = readInt32BE a := readInt32BE_append a d h4
  have h0x : 0 ≤ readInt32BE (a ++ d) := by rw [hr]; exact h0
  have hlex : readInt32BE (a ++ d) ≤ ((a ++ d).length : Int) := by
    rw [hr]; simp only [List.length_append]; push_cast; omega
  rw [splitRest_eq_drop a h0 hle, splitRest_eq_drop (a ++ d) h0x hlex, hr,
    List.drop_append_of_le_length (by omega)]

theorem splitsTo_of_fuel :
    ∀ (fuel : Nat) (b : List Nat) (fs : List (List Nat)) (r : List Nat),
      splitBufferFuel fuel b = some (fs, r) → SplitsTo b fs r := by
  intro fuel
  induction fuel with
  | zero => intro b fs r h; simp [splitBufferFuel] at h
  | succ n ih =>
    intro b fs r h
    by_cases hc : splitCond b = true
    · rw [splitBufferFuel, if_pos hc] at h
      obtain ⟨⟨fs0, r0⟩, hx, hf⟩ := Option.map_eq_some'.1 h
      simp only [Prod.mk.injEq] at hf
      obtain ⟨hf1, hf2⟩ := hf
      subst hf1; subst hf2
      exact SplitsTo.step b fs0 r0 hc (ih _ _ _ hx)
    · rw [splitBufferFuel, if_neg hc] at h
      simp only [Option.some.injEq, Prod.mk.injEq] at h
      obtain ⟨h1, h2⟩ := h
      subst h1; subst h2
      exact SplitsTo.stop b (by simpa using hc)

theorem fuel_of_splitsTo {b : List Nat} {fs : List (List Nat)} {r : List Nat}
    (h : SplitsTo b fs r) :
    splitBufferFuel (fs.length + 1) b = some (fs, r) := by
  induction h with
  | stop buf hc => simp [splitBufferFuel, hc]
  | step buf fs r hc hrec ih =>
    have hunfold : splitBufferFuel ((splitPack buf :: fs).length + 1) buf =
        if splitCond buf = true then
          (splitBufferFuel (fs.length + 1) (splitRest buf)).map
            (fun pr => (splitPack buf :: pr.1, pr.2))
        else some ([], buf) := rfl
    rw [hunfold, if_pos hc, ih]
    rfl

theorem splitsTo_of_pos {b : List Nat} {fs : List (List Nat)} {r : List Nat}
    (h : SplitsToPos b fs r) : SplitsTo b fs r := by
  induction h with
  | stop buf hc => exact .stop buf hc
  | step buf fs r hc _ _ ih => exact .step buf fs r hc ih

theorem splitsTo_rest_cond {b : List Nat} {fs : List (List Nat)} {r : List Nat}
    (h : SplitsTo b fs r) : splitCond r = false := by
  induction h with
  | stop buf hc => exact hc
  | step buf fs r _ _ ih => exact ih

theorem splitsTo_det {b : List Nat} {fs fs2 : List (List Nat)} {r r2 : List Nat}
    (h1 : SplitsTo b fs r) (h2 : SplitsTo b fs2 r2) : fs = fs2 ∧ r = r2 := by
  induction h1 generalizing fs2 r2 with
  | stop buf hc =>
    cases h2 with
    | stop _ _ => exact ⟨rfl, rfl⟩
    | step _ _ _ hc2 _ => rw [hc] at hc2; cases hc2
  | step buf fs r hc hrec ih =>
    cases h2 with
    | stop _ hc2 => rw [hc] at hc2; cases hc2
    | step _ fs2 r2 hc2 hrec2 =>
      obtain ⟨e1, e2⟩ := ih hrec2
      exact ⟨by rw [e1], e2⟩

theorem splitsToPos_of_goodA :
    ∀ (fuel : Nat) (b : List Nat), goodA fuel b = true →
      ∃ fs r, SplitsToPos b fs r := by
  intro fuel
  induction fuel with
  | zero => intro b h; simp [goodA] at h
  | succ n ih =>
    intro b h
    by_cases hc : splitCond b = true
    · rw [goodA, if_pos hc] at h
      simp only [Bool.and_eq_true, decide_eq_true_eq] at h
      obtain ⟨hpos, hg⟩ := h
      obtain ⟨fs, r, hr⟩ := ih _ hg
      exact ⟨_, _, .step b fs r hc hpos hr⟩
    · exact ⟨[], b, .stop b (by simpa using hc)⟩

theorem splitsToPos_decomp {u : List Nat} {F : List (List Nat)} {R : List Nat}
    (h : SplitsToPos u F R) :
    ∀ a d, u = a ++ d →
      ∃ fs1 r1 F2, SplitsToPos a fs1 r1 ∧ SplitsToPos (r1 ++ d) F2 R ∧
        F = fs1 ++ F2 := by
  induction h with
  | stop buf hc =>
    intro a d hu
    subst hu
    have hca : splitCond a = false := by
      rw [splitCond_false_iff]
      rcases (splitCond_false_iff _).1 hc with h4 | hlt
      · left; simp only [List.length_append] at h4; omega
      · by_cases h4 : 4 ≤ a.length
        · right
          rw [readInt32BE_append a d h4] at hlt
          simp only [List.length_append] at hlt
          push_cast at hlt ⊢
          omega
        · left; omega
    exact ⟨[], a, [], .stop a hca, .stop (a ++ d) hc, rfl⟩
  | step buf fs r hc hpos hrec ih =>
    intro a d hu
    subst hu
    by_cases hca : splitCond a = true
    · have h4 : 4 ≤ a.length := ((splitCond_iff a).1 hca).1
      have hle : readInt32BE a ≤ (a.length : Int) := ((splitCond_iff a).1 hca).2
      have hra : readInt32BE (a ++ d) = readInt32BE a := readInt32BE_append a d h4
      have hposa : 1 ≤ readInt32BE a := by rw [← hra]; exact hpos
      have h0 : 0 ≤ readInt32BE a := by omega
      have hpk : splitPack (a ++ d) = splitPack a := splitPack_append a d h4 h0 hle
      have hrs : splitRest (a ++ d) = splitRest a ++ d :=
        splitRest_append a d h4 h0 hle
      obtain ⟨fs1, r1, F2, hA, hB, hF⟩ := ih (splitRest a) d hrs
      refine ⟨splitPack a :: fs1, r1, F2, .step a fs1 r1 hca hposa hA, hB, ?_⟩
      rw [hpk, hF, List.cons_append]
    · have hcaf : splitCond a = false := by simpa using hca
      exact ⟨[], a, splitPack (a ++ d) :: fs, .stop a hcaf,
        .step (a ++ d) fs r hc hpos hrec, rfl⟩

theorem feedAll_of_pos :
    ∀ (cs : List (List Nat)) (b : List Nat) (F : List (List Nat)) (R : List Nat),
      splitCond b = false → SplitsToPos (b ++ cs.flatten) F R →
      FeedAll b cs F R := by
  intro cs
  induction cs with
  | nil =>
    intro b F R hb h
    rw [List.flatten_nil, List.append_nil] at h
    cases h with
    | stop _ _ => exact .nil b
    | step _ _ _ hc _ => simp [hb] at hc
  | cons c cs ih =>
    intro b F R hb h
    rw [List.flatten_cons, ← List.append_assoc] at h
    obtain ⟨fs1, r1, F2, hA, hB, hF⟩ := splitsToPos_decomp h (b ++ c) cs.flatten rfl
    have hr1 : splitCond r1 = false := splitsTo_rest_cond (splitsTo_of_pos hA)
    subst hF
    exact .cons b c cs fs1 F2 r1 R (splitsTo_of_pos hA) (ih r1 F2 R hr1 hB)

theorem feedAll_det {b : List Nat} {cs : List (List Nat)}
    {F F2 : List (List Nat)} {R R2 : List Nat}
    (h1 : FeedAll b cs F R) (h2 : FeedAll b cs F2 R2) : F = F2 ∧ R = R2 := by
  induction h1 generalizing F2 R2 with
  | nil b =>
    cases h2 with
    | nil _ => exact ⟨rfl, rfl⟩
  | cons b c cs fs F r R hsp hfeed ih =>
    cases h2 with
    | cons _ _ _ fs2 F2x r2 R2x hsp2 hfeed2 =>
      obtain ⟨e1, e2⟩ := splitsTo_det hsp hsp2
      subst e1
      subst e2
      obtain ⟨e3, e4⟩ := ih hfeed2
      exact ⟨by rw [e3], e4⟩

theorem map_getD_range {α : Type} (l : List α) (d : α) :
    (List.range l.length).map (fun i => l.getD i d) = l := by
  induction l with
  | nil => simp
  | cons a t ih =>
    rw [List.length_cons, List.range_succ_eq_map, List.map_cons, List.map_map]
    have he : ((fun i => (a :: t).getD i d) ∘ Nat.succ) = fun i => t.getD i d := by
      funext i
      simp [List.getD_cons_succ]
    rw [he, ih, List.getD_cons_zero]

/-! ### Claim theorems -/

/-- Claim C1: the claim (and the spec) require that after `close()` on
the supervisor no new Session is ever constructed, even when a
reconnect retry was already scheduled.  The code violates this: the
pending `setTimeout` callback is not cancelled and `connect()` does
not re-check `closed`.  Evaluating the supervisor at the failing
input — a connection `close` (which schedules a retry), then `close()`
on the supervisor, then the pending retry firing — shows `closed` set
with one retry pending, yet the Session count rises from 1 to 2. -/
theorem c1_retry_after_close_builds_session :
    (supRun supInit [SupEvent.connClose, SupEvent.superClose]).closed = true ∧
    (supRun supInit [SupEvent.connClose, SupEvent.superClose]).pending = 1 ∧
    (supRun supInit [SupEvent.connClose, SupEvent.superClose]).built = 1 ∧
    (supStep (supRun supInit [SupEvent.connClose, SupEvent.superClose])
        SupEvent.retryFire).built = 2 := by
  decide

/-- The guarantee that does hold: after `close()` the supervisor never
schedules a new retry, its `closed` flag stays set, and the number of
Sessions ever constructed afterwards is bounded by the retries already
pending at the moment of the call; in particular with no retry pending
at close, no new Session is ever constructed. -/
theorem supClose_bounds_reconnects (s : SupState)
    (evs : List SupEvent) (h : s.closed = true) :
    (supRun s evs).closed = true ∧
    (supRun s evs).pending ≤ s.pending ∧
    (supRun s evs).built + (supRun s evs).pending ≤ s.built + s.pending := by
  induction evs generalizing s with
  | nil => exact ⟨h, le_refl _, le_refl _⟩
  | cons e evs ih =>
    have hstep : supRun s (e :: evs) = supRun (supStep s e) evs := rfl
    have hc : (supStep s e).closed = true := by
      cases e with
      | connClose => simp [supStep, h]
      | retryFire =>
        by_cases hp : s.pending = 0 <;> simp [supStep, hp, h]
      | superClose => simp [supStep]
    have hb : (supStep s e).built + (supStep s e).pending ≤
        s.built + s.pending ∧ (supStep s e).pending ≤ s.pending := by
      cases e with
      | connClose => simp [supStep, h]
      | retryFire =>
        by_cases hp : s.pending = 0
        · simp [supStep, hp]
        · simp only [supStep, if_neg hp]
          omega
      | superClose => simp [supStep]
    obtain ⟨a1, a2, a3⟩ := ih (supStep s e) hc
    rw [hstep]
    exact ⟨a1, le_trans a2 hb.2, le_trans a3 hb.1⟩

/-- Instantiation of the close-time bound at a concrete closed
supervisor state with one pending retry. -/
theorem supClose_bounds_reconnects_inst :
    (supRun ⟨true, 1, 1⟩
        [SupEvent.retryFire, SupEvent.connClose, SupEvent.retryFire]).closed
      = true ∧
    (supRun ⟨true, 1, 1⟩
        [SupEvent.retryFire, SupEvent.connClose, SupEvent.retryFire]).pending
      ≤ 1 ∧
    (supRun ⟨true, 1, 1⟩
          [SupEvent.retryFire, SupEvent.connClose, SupEvent.retryFire]).built +
        (supRun ⟨true, 1, 1⟩
          [SupEvent.retryFire, SupEvent.connClose, SupEvent.retryFire]).pending
      ≤ 1 + 1 :=
  supClose_bounds_reconnects ⟨true, 1, 1⟩
    [SupEvent.retryFire, SupEvent.connClose, SupEvent.retryFire] rfl

/-- Claim C2, counterexample: the claim says construction fails for
every non-integer room id, but the constructor only rejects non-numbers
and `NaN`; it accepts the non-integer number 1.5 (numerator 3,
denominator 2), for both the bare Session and the Supervisor. -/
theorem c2_counterexample_accepts_non_integer :
    (liveCtor (JsVal.num threeHalves)).isOk = true ∧
    (keepLiveCtor (JsVal.num threeHalves)).isOk = true ∧
    threeHalves.num = 3 ∧ threeHalves.den = 2 := by
  decide

/-- Claim C2 (amended): Session and Supervisor construction succeeds
exactly when the room id is a JS number that is not `NaN` — every
positive integer, but also any non-integer or negative number — and
fails synchronously (before any transport is created) for `NaN` and
every non-number value. -/
theorem c2_amended_ctor_ok_iff_number (v : JsVal) :
    ((liveCtor v).isOk = true ↔ ∃ x : Rat, v = JsVal.num x) ∧
    (keepLiveCtor v).isOk = (liveCtor v).isOk := by
  constructor
  · constructor
    · intro h
      cases v with
      | num x => exact ⟨x, rfl⟩
      | nan => exact absurd h Bool.false_ne_true
      | str s => exact absurd h Bool.false_ne_true
      | undef => exact absurd h Bool.false_ne_true
    · rintro ⟨x, rfl⟩
      rfl
  · cases v <;> rfl

/-- Claim C3, counterexample: chunk-boundary independence fails on the
code because the length prefix is read as a SIGNED int32.  The stream
FF FF FF FF 0A 14 fed as chunks [FF FF FF FF 0A] and [14] emits the
frame FF FF FF FF, while fed whole it emits the different frame
FF FF FF FF 0A. -/
theorem c3_counterexample_chunking_dependent :
    ([[255, 255, 255, 255, 10], [20]] : List (List Nat)).flatten
      = [255, 255, 255, 255, 10, 20] ∧
    feedFuel 3 [] [[255, 255, 255, 255, 10], [20]]
      = some ([[255, 255, 255, 255]], [10, 20]) ∧
    splitBufferFuel 3 [255, 255, 255, 255, 10, 20]
      = some ([[255, 255, 255, 255, 10]], [20]) ∧
    ([[255, 255, 255, 255]] : List (List Nat)) ≠ [[255, 255, 255, 255, 10]] := by
  decide

/-- Claim C3 (amended): whenever every declared frame length read while
splitting the whole stream is at least 1 (in particular whenever the
frames are well-formed length-prefixed frames), feeding the chunks one
by one emits exactly the frames, in the same order, that feeding the
whole stream at once emits, and leaves the same unconsumed rest — and
that chunked outcome is unique. -/
theorem c3_amended_chunk_independence_pos (chunks F : List (List Nat))
    (R : List Nat) (fuel : Nat) (hgood : goodBuf chunks.flatten = true)
    (hrun : splitBufferFuel fuel chunks.flatten = some (F, R)) :
    FeedAll [] chunks F R ∧
    ∀ F2 R2, FeedAll [] chunks F2 R2 → F2 = F ∧ R2 = R := by
  have hto : SplitsTo chunks.flatten F R := splitsTo_of_fuel fuel _ F R hrun
  obtain ⟨Fp, Rp, hp⟩ := splitsToPos_of_goodA _ _ hgood
  obtain ⟨e1, e2⟩ := splitsTo_det hto (splitsTo_of_pos hp)
  subst e1
  subst e2
  have hfeed : FeedAll [] chunks F R := by
    apply feedAll_of_pos chunks [] F R (by decide)
    simpa using hp
  exact ⟨hfeed, fun F2 R2 h2 => feedAll_det h2 hfeed⟩

/-- Witness for the amended claim C3: the stream 00 00 00 05 09 07 00 00
split as [00 00 00 05 09] and [07 00 00]. -/
theorem c3_amended_witness :
    FeedAll [] [[0, 0, 0, 5, 9], [7, 0, 0]] [[0, 0, 0, 5, 9]] [7, 0, 0] ∧
    ∀ F2 R2, FeedAll [] [[0, 0, 0, 5, 9], [7, 0, 0]] F2 R2 →
      F2 = [[0, 0, 0, 5, 9]] ∧ R2 = [7, 0, 0] :=
  c3_amended_chunk_independence_pos [[0, 0, 0, 5, 9], [7, 0, 0]]
    [[0, 0, 0, 5, 9]] [7, 0, 0] 3 (by decide) (by decide)

/-- Claim C4, counterexample: the claim says the first 4 bytes are read
as an UNSIGNED big-endian length and that no frame is emitted when the
declared length exceeds the buffer.  On FF FF FF FF the unsigned length
is 4294967295, which exceeds the buffer length 4, so per the claim the
loop must stop; the code reads the SIGNED value -1 and does emit a
frame (of 3 bytes, by JS negative-slice semantics). -/
theorem c4_counterexample_signed_read :
    readUInt32BE [255, 255, 255, 255] = 4294967295 ∧
    ([255, 255, 255, 255] : List Nat).length < 4294967295 ∧
    readInt32BE [255, 255, 255, 255] = -1 ∧
    splitBufferFuel 2 [255, 255, 255, 255] = some ([[255, 255, 255]], [255]) := by
  decide

/-- Claim C4 (amended): the length prefix is the first 4 bytes read as
a SIGNED big-endian int32.  While the buffer holds at least 4 bytes and
the declared length is nonnegative and at most the buffer length, one
loop iteration slices out exactly that many bytes as the frame, leaves
exactly the bytes past them, and emits the frame; the loop returns with
the buffer untouched when fewer than 4 bytes remain or the declared
length exceeds the buffer length. -/
theorem c4_amended_signed_framing (buf : List Nat) (fuel : Nat) :
    (4 ≤ buf.length → 0 ≤ readInt32BE buf →
      readInt32BE buf ≤ (buf.length : Int) →
      splitPack buf = buf.take (readInt32BE buf).toNat ∧
      splitRest buf = buf.drop (readInt32BE buf).toNat ∧
      splitBufferFuel (fuel + 1) buf =
        (splitBufferFuel fuel (buf.drop (readInt32BE buf).toNat)).map
          (fun pr => (buf.take (readInt32BE buf).toNat :: pr.1, pr.2))) ∧
    ((buf.length < 4 ∨ (buf.length : Int) < readInt32BE buf) →
      splitBufferFuel (fuel + 1) buf = some ([], buf)) := by
  constructor
  · intro h4 h0 hle
    have hpk := splitPack_eq_take buf h0 hle
    have hrs := splitRest_eq_drop buf h0 hle
    have hcnd : splitCond buf = true := (splitCond_iff buf).2 ⟨h4, hle⟩
    refine ⟨hpk, hrs, ?_⟩
    have hunfold : splitBufferFuel (fuel + 1) buf =
        if splitCond buf = true then
          (splitBufferFuel fuel (splitRest buf)).map
            (fun pr => (splitPack buf :: pr.1, pr.2))
        else some ([], buf) := rfl
    rw [hunfold, if_pos hcnd, hpk, hrs]
  · intro h
    have hcnd : splitCond buf = false := (splitCond_false_iff buf).2 h
    have hunfold : splitBufferFuel (fuel + 1) buf =
        if splitCond buf = true then
          (splitBufferFuel fuel (splitRest buf)).map
            (fun pr => (splitPack buf :: pr.1, pr.2))
        else some ([], buf) := rfl
    rw [hunfold, if_neg (by simp [hcnd])]

/-- Witness for the amended claim C4: the consuming case on
00 00 00 06 01 02 (declared length 6) and the stopping case on
00 00 00 09 (declared length 9 exceeds the 4 available bytes). -/
theorem c4_amended_witness :
    (splitPack [0, 0, 0, 6, 1, 2] =
        List.take (readInt32BE [0, 0, 0, 6, 1, 2]).toNat [0, 0, 0, 6, 1, 2] ∧
      splitRest [0, 0, 0, 6, 1, 2] =
        List.drop (readInt32BE [0, 0, 0, 6, 1, 2]).toNat [0, 0, 0, 6, 1, 2] ∧
      splitBufferFuel (1 + 1) [0, 0, 0, 6, 1, 2] =
        (splitBufferFuel 1
            (List.drop (readInt32BE [0, 0, 0, 6, 1, 2]).toNat
              [0, 0, 0, 6, 1, 2])).map
          (fun pr =>
            (List.take (readInt32BE [0, 0, 0, 6, 1, 2]).toNat
                [0, 0, 0, 6, 1, 2] :: pr.1, pr.2))) ∧
    splitBufferFuel (0 + 1) [0, 0, 0, 9] = some ([], [0, 0, 0, 9]) :=
  ⟨(c4_amended_signed_framing [0, 0, 0, 6, 1, 2] 1).1 (by decide) (by decide)
      (by decide),
   (c4_amended_signed_framing [0, 0, 0, 9] 0).2 (by decide)⟩

/-- Claim C5: every Session that receives a decoded `welcome` packet
immediately followed by a `heartbeat` packet with count 42 ends up
live, emits `live` before `heartbeat(42)`, sends a heartbeat request
as part of the welcome handling (between those two events), and its
`online` accessor reads 42 afterwards (any pending `getOnline` waiters
resolve with 42 after the `heartbeat` event). -/
theorem c5_welcome_then_heartbeat (s : SessionState) :
    (processPacks s [Pack.welcome, Pack.heartbeat 42]).1.live = true ∧
    (processPacks s [Pack.welcome, Pack.heartbeat 42]).1.online = 42 ∧
    (processPacks s [Pack.welcome, Pack.heartbeat 42]).2 =
      [Out.liveEvt, Out.send WireOut.heartbeatReq, Out.heartbeatEvt 42] ++
        s.pendingOnce.map (fun id => Out.resolve id 42) := by
  simp [processPacks, handlePack]

/-- Claim C6: two `getOnline()` calls made while no heartbeat has yet
arrived each send a heartbeat request and each register their own
one-shot wait; one subsequent `heartbeat` packet with count 7 resolves
both pending waits with 7, clears them, and stores 7 as the online
count. -/
theorem c6_getOnline_twice_resolved (s : SessionState) (a b : Nat)
    (h : s.pendingOnce = []) :
    (getOnline s a).2 = [Out.send WireOut.heartbeatReq] ∧
    (getOnline (getOnline s a).1 b).2 = [Out.send WireOut.heartbeatReq] ∧
    (processPacks (getOnline (getOnline s a).1 b).1 [Pack.heartbeat 7]).2 =
      [Out.heartbeatEvt 7, Out.resolve a 7, Out.resolve b 7] ∧
    (processPacks (getOnline (getOnline s a).1 b).1 [Pack.heartbeat 7]).1.online
      = 7 ∧
    (processPacks (getOnline (getOnline s a).1 b).1
        [Pack.heartbeat 7]).1.pendingOnce = [] := by
  simp [getOnline, processPacks, handlePack, h]

/-- Witness for claim C6 at a fresh session with waiter ids 0 and 1. -/
theorem c6_witness :
    (getOnline (initSession 1) 0).2 = [Out.send WireOut.heartbeatReq] ∧
    (getOnline (getOnline (initSession 1) 0).1 1).2 =
      [Out.send WireOut.heartbeatReq] ∧
    (processPacks (getOnline (getOnline (initSession 1) 0).1 1).1
        [Pack.heartbeat 7]).2 =
      [Out.heartbeatEvt 7, Out.resolve 0 7, Out.resolve 1 7] ∧
    (processPacks (getOnline (getOnline (initSession 1) 0).1 1).1
        [Pack.heartbeat 7]).1.online = 7 ∧
    (processPacks (getOnline (getOnline (initSession 1) 0).1 1).1
        [Pack.heartbeat 7]).1.pendingOnce = [] :=
  c6_getOnline_twice_resolved (initSession 1) 0 1 rfl

/-- Claim C7: every decoded `message` packet leaves the session state
unchanged and emits the generic `msg` event with the payload first;
when the payload carries a (truthy) command string, directly in `cmd`
or nested under the `msg` wrapper, one additional command-named event
follows: under the canonical name DANMU_MSG whenever the command
contains the substring DANMU_MSG, and verbatim under the command name
otherwise; with no command only `msg` is emitted. -/
theorem c7_message_cmd_routing (s : SessionState) (d : MsgData) (c : String) :
    (handlePack s (Pack.message d)).1 = s ∧
    (handlePack s (Pack.message d)).2.head? = some (Out.msgEvt d) ∧
    (getCmd d = some c → strIncludes c "DANMU_MSG" = true →
      (handlePack s (Pack.message d)).2 =
        [Out.msgEvt d, Out.namedEvt "DANMU_MSG" d]) ∧
    (getCmd d = some c → strIncludes c "DANMU_MSG" = false →
      (handlePack s (Pack.message d)).2 =
        [Out.msgEvt d, Out.namedEvt c d]) ∧
    (getCmd d = none → (handlePack s (Pack.message d)).2 = [Out.msgEvt d]) := by
  refine ⟨rfl, ?_, ?_, ?_, ?_⟩
  · cases hg : getCmd d <;> simp [handlePack, hg]
  · intro h1 h2
    simp [handlePack, h1, h2]
  · intro h1 h2
    simp [handlePack, h1, h2]
  · intro h1
    simp [handlePack, h1]

/-- Witness for claim C7: a variant-tagged danmaku command is
normalised to DANMU_MSG, and an unrelated command (nested under the
msg wrapper) is re-emitted verbatim. -/
theorem c7_witness :
    (handlePack (initSession 1)
        (Pack.message ⟨some "DANMU_MSG:4:0:2:9:2", none⟩)).2 =
      [Out.msgEvt ⟨some "DANMU_MSG:4:0:2:9:2", none⟩,
        Out.namedEvt "DANMU_MSG" ⟨some "DANMU_MSG:4:0:2:9:2", none⟩] ∧
    (handlePack (initSession 1) (Pack.message ⟨none, some "SEND_GIFT"⟩)).2 =
      [Out.msgEvt ⟨none, some "SEND_GIFT"⟩,
        Out.namedEvt "SEND_GIFT" ⟨none, some "SEND_GIFT"⟩] :=
  ⟨(c7_message_cmd_routing (initSession 1) ⟨some "DANMU_MSG:4:0:2:9:2", none⟩
      "DANMU_MSG:4:0:2:9:2").2.2.1 (by decide) (by decide),
   (c7_message_cmd_routing (initSession 1) ⟨none, some "SEND_GIFT"⟩
      "SEND_GIFT").2.2.2.1 (by decide) (by decide)⟩

/-- Claim C8, counterexample: the claim says packets of a later buffer
are never dispatched before the decode of an earlier buffer completed.
Each received buffer is handled by its own `async` handler that awaits
the decoder with no cross-buffer serialisation, so dispatch happens in
decode-completion order; with two buffers whose decodes complete in
reversed order (a legal completion schedule: a permutation of the
arrival indices), the packets of the second buffer are dispatched
first, breaking wire order. -/
theorem c8_counterexample_out_of_order_decode :
    ([1, 0] : List Nat).Perm (List.range 2) ∧
    (completionDispatch (initSession 1)
        [[Pack.heartbeat 1], [Pack.heartbeat 2]] [1, 0]).2 =
      [Out.heartbeatEvt 2, Out.heartbeatEvt 1] ∧
    (processPacks (initSession 1)
        ([[Pack.heartbeat 1], [Pack.heartbeat 2]] :
          List (List Pack)).flatten).2 =
      [Out.heartbeatEvt 1, Out.heartbeatEvt 2] ∧
    ([Out.heartbeatEvt 2, Out.heartbeatEvt 1] : List Out) ≠
      [Out.heartbeatEvt 1, Out.heartbeatEvt 2] := by
  decide

/-- Claim C8 (amended): the session dispatches each buffer atomically
in decode-completion order, so end-to-end packet order equals wire
arrival order exactly when decode completions occur in arrival order
(the identity schedule); the session itself adds no serialisation that
would enforce this for an out-of-order asynchronous decoder. -/
theorem c8_amended_inorder_completion (s : SessionState)
    (buffers : List (List Pack)) :
    completionDispatch s buffers (List.range buffers.length) =
      processPacks s buffers.flatten := by
  unfold completionDispatch
  rw [map_getD_range buffers []]

/-- Claim C9: a transport error is forwarded to the session as the
internal `_error` event, whose handler first closes the session and
then emits `error` with the cause (distinguishable from a clean close);
the supervisor re-emits that cause under the low-level event name `e`
and then relays the `error` event itself to its own listeners. -/
theorem c9_error_close_then_emit (s : SessionState) (c : Nat)
    (closed : Bool) :
    handleCtrl s (adapterMap (TransportEvt.tError c)) =
      (s, [Out.closeCall, Out.errorEvt c]) ∧
    supOnSessionEvent closed "error" c =
      [SupOut.emitted "e" c, SupOut.emitted "error" c] := by
  constructor
  · rfl
  · simp [supOnSessionEvent]

/-- Claim C10: the TCP frame-splitting loop makes progress only for
positive declared lengths.  For every buffer of length at least 4 whose
first 4 bytes decode to 0 the loop never terminates — each iteration
emits an empty frame and leaves the buffer unchanged — and for every
buffer whose successive declared frame lengths are all at least 1 the
loop terminates. -/
theorem c10_zero_length_divergence_pos_termination :
    (∀ buf : List Nat, 4 ≤ buf.length → readInt32BE buf = 0 →
      splitPack buf = [] ∧ splitRest buf = buf ∧
      ∀ fuel, splitBufferFuel fuel buf = none) ∧
    (∀ buf : List Nat, goodBuf buf = true →
      ∃ fuel fs r, splitBufferFuel fuel buf = some (fs, r)) := by
  constructor
  · intro buf h4 h0
    have hcnd : splitCond buf = true :=
      (splitCond_iff buf).2 ⟨h4, by rw [h0]; positivity⟩
    have hpk : splitPack buf = [] := by
      unfold splitPack jsSlice jsIdx
      rw [h0]
      simp
    have hrs : splitRest buf = buf := by
      unfold splitRest jsSliceFrom jsIdx
      rw [h0]
      simp
    refine ⟨hpk, hrs, ?_⟩
    intro fuel
    induction fuel with
    | zero => rfl
    | succ n ih =>
      have hunfold : splitBufferFuel (n + 1) buf =
          if splitCond buf = true then
            (splitBufferFuel n (splitRest buf)).map
              (fun pr => (splitPack buf :: pr.1, pr.2))
          else some ([], buf) := rfl
      rw [hunfold, if_pos hcnd, hrs, ih]
      rfl
  · intro buf hg
    obtain ⟨fs, r, hp⟩ := splitsToPos_of_goodA _ _ hg
    exact ⟨fs.length + 1, fs, r, fuel_of_splitsTo (splitsTo_of_pos hp)⟩

/-- Witness for claim C10: divergence on the all-zero header 00 00 00 00
and termination on 00 00 00 04. -/
theorem c10_witness :
    (splitPack [0, 0, 0, 0] = [] ∧ splitRest [0, 0, 0, 0] = [0, 0, 0, 0] ∧
      ∀ fuel, splitBufferFuel fuel [0, 0, 0, 0] = none) ∧
    (∃ fuel fs r, splitBufferFuel fuel [0, 0, 0, 4] = some (fs, r)) :=
  ⟨c10_zero_length_divergence_pos_termination.1 [0, 0, 0, 0] (by decide)
      (by decide),
   c10_zero_length_divergence_pos_termination.2 [0, 0, 0, 4] (by decide)⟩

end BiliLive
